import Mathlib

/-!
Verification of the PyMiniRacer v8 frontend core (`src/v8_py_frontend`).

This file gives a shallow embedding of the data model and operations of the
MiniRacer runtime — the value type tags, the v8-value type inference, the code
evaluator's error classification, the object manipulator's argument checks,
the value registry, the memory monitor, the cancelable task state machine and
its scheduling wrapper, and the C export layer — and proves the specified
properties about them.
-/

set_option maxHeartbeats 1000000
set_option linter.unusedVariables false

/-- Value type tags, from `enum ValueTypes` in value.h.  The revision of
value.cc that defines `InferTypeFromValue` additionally uses `type_string`
and `type_array_buffer_view` tags, which we include. -/
inductive ValueTypes where
  | type_invalid
  | type_null
  | type_bool
  | type_integer
  | type_double
  | type_str_utf8
  | type_string
  | type_array
  | type_date
  | type_symbol
  | type_object
  | type_undefined
  | type_function
  | type_shared_array_buffer
  | type_array_buffer
  | type_array_buffer_view
  | type_promise
  | type_execute_exception
  | type_parse_exception
  | type_oom_exception
  | type_timeout_exception
  | type_terminated_exception
  | type_value_exception
  | type_key_exception
  deriving DecidableEq, Repr

open ValueTypes

/-- An abstraction of a `v8::Local<v8::Value>`: one constructor per kind of
engine value that the frontend's type predicates distinguish.  `vNumberNonInt`
is a v8 Number whose value is not representable as an int32 (payload
abstracted); `vExternal` stands for any engine value matching none of the
type predicates queried by the frontend. -/
inductive JSValue where
  | vNull
  | vUndefined
  | vBool (b : Bool)
  | vInt32 (n : Int)
  | vNumberNonInt (w : Nat)
  | vBigInt (n : Int)
  | vString (cps : List Nat)
  | vSymbol
  | vDate (t : Int)
  | vArray
  | vFunction
  | vPromise
  | vArrayBuffer
  | vSharedArrayBuffer
  | vArrayBufferView
  | vPlainObject
  | vExternal
  deriving DecidableEq, Repr

/-- `v8::Value::IsNull`. -/
def JSValue.IsNull : JSValue → Bool
  | .vNull => true
  | _ => false

/-- `v8::Value::IsUndefined`. -/
def JSValue.IsUndefined : JSValue → Bool
  | .vUndefined => true
  | _ => false

/-- `v8::Value::IsFunction`. -/
def JSValue.IsFunction : JSValue → Bool
  | .vFunction => true
  | _ => false

/-- `v8::Value::IsSymbol`. -/
def JSValue.IsSymbol : JSValue → Bool
  | .vSymbol => true
  | _ => false

/-- `v8::Value::IsPromise`. -/
def JSValue.IsPromise : JSValue → Bool
  | .vPromise => true
  | _ => false

/-- `v8::Value::IsArray`. -/
def JSValue.IsArray : JSValue → Bool
  | .vArray => true
  | _ => false

/-- `v8::Value::IsInt32`. -/
def JSValue.IsInt32 : JSValue → Bool
  | .vInt32 _ => true
  | _ => false

/-- `v8::Value::IsBigInt`. -/
def JSValue.IsBigInt : JSValue → Bool
  | .vBigInt _ => true
  | _ => false

/-- `v8::Value::IsNumber`: true for every Number, int32-valued or not. -/
def JSValue.IsNumber : JSValue → Bool
  | .vInt32 _ => true
  | .vNumberNonInt _ => true
  | _ => false

/-- `v8::Value::IsBoolean`. -/
def JSValue.IsBoolean : JSValue → Bool
  | .vBool _ => true
  | _ => false

/-- `v8::Value::IsDate`. -/
def JSValue.IsDate : JSValue → Bool
  | .vDate _ => true
  | _ => false

/-- `v8::Value::IsString`. -/
def JSValue.IsString : JSValue → Bool
  | .vString _ => true
  | _ => false

/-- `v8::Value::IsArrayBufferView`. -/
def JSValue.IsArrayBufferView : JSValue → Bool
  | .vArrayBufferView => true
  | _ => false

/-- `v8::Value::IsSharedArrayBuffer`. -/
def JSValue.IsSharedArrayBuffer : JSValue → Bool
  | .vSharedArrayBuffer => true
  | _ => false

/-- `v8::Value::IsArrayBuffer`. -/
def JSValue.IsArrayBuffer : JSValue → Bool
  | .vArrayBuffer => true
  | _ => false

/-- `v8::Value::IsObject`: true for every JS object (arrays, functions,
promises, dates, buffers and views, plain objects), false for primitives. -/
def JSValue.IsObject : JSValue → Bool
  | .vArray => true
  | .vFunction => true
  | .vPromise => true
  | .vDate _ => true
  | .vArrayBuffer => true
  | .vSharedArrayBuffer => true
  | .vArrayBufferView => true
  | .vPlainObject => true
  | _ => false

/-- `InferTypeFromValue` from value.cc: the if-chain assigning the type tag
used by `ValueFactory::NewFromAny`. -/
def InferTypeFromValue (value : JSValue) : ValueTypes :=
  if value.IsNull then type_null
  else if value.IsUndefined then type_undefined
  else if value.IsFunction then type_function
  else if value.IsSymbol then type_symbol
  else if value.IsPromise then type_promise
  else if value.IsArray then type_array
  else if value.IsInt32 || value.IsBigInt then type_integer
  else if value.IsNumber then type_double
  else if value.IsBoolean then type_bool
  else if value.IsDate then type_date
  else if value.IsString then type_string
  else if value.IsArrayBufferView then type_array_buffer_view
  else if value.IsSharedArrayBuffer then type_shared_array_buffer
  else if value.IsArrayBuffer then type_array_buffer
  else if value.IsObject then type_object
  else type_invalid

/-- First-match tag assignment over an ordered list of (predicate, tag)
pairs, falling through to `type_invalid`.  Used to state the spec's
"type-inference order (first match wins)" sentence. -/
def firstMatchTag : List ((JSValue → Bool) × ValueTypes) → JSValue → ValueTypes
  | [], _ => type_invalid
  | (p, t) :: rest, v => if p v then t else firstMatchTag rest v

/-- The spec's type-inference order, §4.4: null, undefined, function, symbol,
promise, array, (int32 or bigint) → integer, number → double, boolean, date,
string, array-buffer-view, shared-array-buffer, array-buffer, object. -/
def specInferenceOrder : List ((JSValue → Bool) × ValueTypes) :=
  [(JSValue.IsNull, type_null),
   (JSValue.IsUndefined, type_undefined),
   (JSValue.IsFunction, type_function),
   (JSValue.IsSymbol, type_symbol),
   (JSValue.IsPromise, type_promise),
   (JSValue.IsArray, type_array),
   (fun v => v.IsInt32 || v.IsBigInt, type_integer),
   (JSValue.IsNumber, type_double),
   (JSValue.IsBoolean, type_bool),
   (JSValue.IsDate, type_date),
   (JSValue.IsString, type_string),
   (JSValue.IsArrayBufferView, type_array_buffer_view),
   (JSValue.IsSharedArrayBuffer, type_shared_array_buffer),
   (JSValue.IsArrayBuffer, type_array_buffer),
   (JSValue.IsObject, type_object)]

/-- A produced result Value, abstracted to its type tag and, for string-backed
Values, the message passed to `NewFromString` / summarized by
`NewFromException` (the summary text itself is supplied by the environment). -/
structure ResultValue where
  tag : ValueTypes
  msg : String
  deriving DecidableEq, Repr

/-- The engine-side outcome of compiling and running a script, which is
external input to `CodeEvaluator::Eval`: whether `v8::Script::Compile`
succeeded, the value produced by `script->Run` (`none` when the run failed),
whether `trycatch.HasTerminated()` reports termination, and the exception
summary text `NewFromException` would produce from the try-catch state. -/
structure V8RunEnv where
  compileOk : Bool
  runResult : Option JSValue
  hasTerminated : Bool
  excSummary : String

/-- `CodeEvaluator::Eval` from code_evaluator.cc: check that the code value is
a string, compile, run, and classify failures in order (hard memory limit,
termination, other exception).  `hardReached` is
`memory_monitor_->IsHardMemoryLimitReached()`. -/
def CodeEvaluator.Eval (hardReached : Bool) (env : V8RunEnv)
    (code : JSValue) : ResultValue :=
  if !code.IsString then
    ⟨type_execute_exception, "code is not a string"⟩
  else if !env.compileOk then
    ⟨type_parse_exception, env.excSummary⟩
  else
    match env.runResult with
    | some v => ⟨InferTypeFromValue v, ""⟩
    | none =>
      if hardReached then
        ⟨type_oom_exception, ""⟩
      else if env.hasTerminated then
        ⟨type_terminated_exception, env.excSummary⟩
      else
        ⟨type_execute_exception, env.excSummary⟩

/-- The engine-side outcome of `v8::Function::Call`, external input to
`ObjectManipulator::Call`: the produced value (`none` when the call threw)
and the exception summary the try-catch would yield. -/
structure V8CallEnv where
  callResult : Option JSValue
  excSummary : String

/-- `ObjectManipulator::Call` from object_manipulator.cc: check the function
and argv shapes, then call and wrap the result or the caught exception. -/
def ObjectManipulator.Call (env : V8CallEnv) (func : JSValue)
    (thisArg : Option JSValue) (argv : JSValue) : ResultValue :=
  if !func.IsFunction then
    ⟨type_execute_exception, "function is not callable"⟩
  else if !argv.IsArray then
    ⟨type_execute_exception, "argv is not an array"⟩
  else
    match env.callResult with
    | some v => ⟨InferTypeFromValue v, ""⟩
    | none => ⟨type_execute_exception, env.excSummary⟩

/-- Insert-or-assign on an association list, mirroring
`values_[handle] = std::move(ptr)` on the registry's `unordered_map`. -/
def mapAssign {α : Type} : List (Nat × α) → Nat → α → List (Nat × α)
  | [], h, v => [(h, v)]
  | (k, w) :: rest, h, v =>
      if k = h then (h, v) :: rest else (k, w) :: mapAssign rest h v

/-- Erase a key from an association list, mirroring `values_.erase(handle)`
(an `unordered_map` holds at most one entry per key). -/
def mapErase {α : Type} : List (Nat × α) → Nat → List (Nat × α)
  | [], _ => []
  | (k, w) :: rest, h =>
      if k = h then rest else (k, w) :: mapErase rest h

/-- Key lookup on an association list, mirroring `values_.find(handle)`. -/
def mapFind {α : Type} : List (Nat × α) → Nat → Option α
  | [], _ => none
  | (k, w) :: rest, h => if k = h then some w else mapFind rest h

/-- The key sets of an `unordered_map` are duplicate-free; association lists
built by `mapAssign`/`mapErase` from the empty map keep this invariant. -/
def mapKeysNodup {α : Type} (m : List (Nat × α)) : Prop :=
  (m.map Prod.fst).Nodup

/-- The value registry, value.cc: a mutex-protected map from handle pointers
to owning Value records.  Handles are modelled as abstract keys (`Nat`). -/
structure ValueRegistry (α : Type) where
  values : List (Nat × α)

/-- `ValueRegistry::Remember`: insert the value under the address of its
embedded handle and return that handle. -/
def ValueRegistry.Remember {α : Type} (r : ValueRegistry α) (handle : Nat)
    (ptr : α) : ValueRegistry α × Nat :=
  (⟨mapAssign r.values handle ptr⟩, handle)

/-- `ValueRegistry::Forget`: erase the handle's entry; silently leaves the
map unchanged when the handle is absent. -/
def ValueRegistry.Forget {α : Type} (r : ValueRegistry α) (handle : Nat) :
    ValueRegistry α :=
  ⟨mapErase r.values handle⟩

/-- `ValueRegistry::FromHandle`: look up the handle, `none` when absent. -/
def ValueRegistry.FromHandle {α : Type} (r : ValueRegistry α) (handle : Nat) :
    Option α :=
  mapFind r.values handle

/-- `ValueRegistry::Count`. -/
def ValueRegistry.Count {α : Type} (r : ValueRegistry α) : Nat :=
  r.values.length

/-- The memory monitor's state, mini_racer.cc: the configured soft and hard
byte limits and the last observed reached flags. -/
structure MonitorState where
  soft_memory_limit : Nat
  soft_memory_limit_reached : Bool
  hard_memory_limit : Nat
  hard_memory_limit_reached : Bool
  deriving DecidableEq, Repr

/-- Engine memory-pressure notification levels passed to
`isolate->MemoryPressureNotification`. -/
inductive PressureLevel where
  | kModerate
  | kNone
  deriving DecidableEq, Repr

/-- The externally observable effects of one GC-epilogue callback: the
pressure notification delivered and whether `TerminateExecution` was
requested. -/
structure GCEffects where
  pressure : PressureLevel
  terminateRequested : Bool
  deriving DecidableEq, Repr

/-- `Context::GCCallback` from mini_racer.cc, as a function of the monitor
state and the `used_heap_size` read from the heap statistics. -/
def Context.GCCallback (st : MonitorState) (used : Nat) :
    MonitorState × GCEffects :=
  let softReached := st.soft_memory_limit > 0 && used > st.soft_memory_limit
  let pressure := if softReached then PressureLevel.kModerate
                  else PressureLevel.kNone
  if st.hard_memory_limit > 0 && used > st.hard_memory_limit then
    ({ st with soft_memory_limit_reached := softReached,
               hard_memory_limit_reached := true },
     ⟨pressure, true⟩)
  else
    ({ st with soft_memory_limit_reached := softReached },
     ⟨pressure, false⟩)

/-- `Context::SetHardMemoryLimit` from mini_racer.cc. -/
def Context.SetHardMemoryLimit (st : MonitorState) (limit : Nat) :
    MonitorState :=
  { st with hard_memory_limit := limit, hard_memory_limit_reached := false }

/-- `Context::SetSoftMemoryLimit` from mini_racer.cc. -/
def Context.SetSoftMemoryLimit (st : MonitorState) (limit : Nat) :
    MonitorState :=
  { st with soft_memory_limit := limit, soft_memory_limit_reached := false }

/-- Per-task lifecycle states, `CancelableTaskState::State` in
cancelable_task_runner. -/
inductive TaskSt where
  | kNotStarted
  | kRunning
  | kCompleted
  | kCanceled
  deriving DecidableEq, Repr

/-- `CancelableTaskState::Cancel`: no-op from canceled or completed;
from running, additionally call `task_runner_->TerminateOngoingTask()`
(reported in the `Bool` component); then move to canceled. -/
def CancelableTaskState.Cancel (s : TaskSt) : TaskSt × Bool :=
  if s = TaskSt.kCanceled ∨ s = TaskSt.kCompleted then
    (s, false)
  else if s = TaskSt.kRunning then
    (TaskSt.kCanceled, true)
  else
    (TaskSt.kCanceled, false)

/-- `CancelableTaskState::SetRunningIfNotCanceled`: refuse when canceled,
otherwise move to running and report success. -/
def CancelableTaskState.SetRunningIfNotCanceled (s : TaskSt) : TaskSt × Bool :=
  if s = TaskSt.kCanceled then (s, false) else (TaskSt.kRunning, true)

/-- `CancelableTaskState::SetCompleteIfNotCanceled`: refuse when canceled,
otherwise move to completed and report success. -/
def CancelableTaskState.SetCompleteIfNotCanceled (s : TaskSt) :
    TaskSt × Bool :=
  if s = TaskSt.kCanceled then (s, false) else (TaskSt.kCompleted, true)

/-- Program counter of the scheduled wrapper around a task body: about to
attempt the running transition; body finished with result `r`, about to
attempt the completion transition; or done. -/
inductive WrapPC (α : Type) where
  | start
  | produced (r : α)
  | done
  deriving DecidableEq, Repr

/-- A terminal callback delivery: `on_completed` with the result, or
`on_canceled` with `none` (body never ran) or the computed value. -/
inductive CbEvent (α : Type) where
  | onCompleted (r : α)
  | onCanceled (r : Option α)
  deriving DecidableEq, Repr

/-- Joint state of one scheduled task: the `CancelableTaskState` machine, the
wrapper's program counter, the terminal callbacks delivered so far, the
number of `TerminateOngoingTask` requests, and whether the body has run. -/
structure TaskSys (α : Type) where
  task : TaskSt
  pc : WrapPC α
  events : List (CbEvent α)
  terminations : Nat
  bodyRan : Bool
  deriving DecidableEq, Repr

/-- Initial state of a scheduled task: not started, wrapper at the top, no
callback delivered. -/
def TaskSys.init (α : Type) : TaskSys α :=
  ⟨TaskSt.kNotStarted, WrapPC.start, [], 0, false⟩

/-- Modelled from the spec: the body wrapper built by
`CancelableTaskRunner::Schedule` (cancelable_task_runner.h, not present in
src/) per §4.5 — (a) try the running transition, and if it fails invoke
`on_canceled(null)` and skip the body; (b) run the body; (c) try the
completion transition, invoking `on_completed(result)` on success and
`on_canceled(result)` if a concurrent cancel won — interleaved with `cancel()`
steps (`CancelableTaskState::Cancel` from the source), each lock-protected
transition being one atomic step.  `body` is the value the task body
computes. -/
inductive TaskStep (α : Type) (body : α) : TaskSys α → TaskSys α → Prop where
  | runOk : ∀ s : TaskSys α, s.pc = WrapPC.start →
      (CancelableTaskState.SetRunningIfNotCanceled s.task).2 = true →
      TaskStep α body s
        { s with task := (CancelableTaskState.SetRunningIfNotCanceled s.task).1,
                 pc := WrapPC.produced body,
                 bodyRan := true }
  | runFail : ∀ s : TaskSys α, s.pc = WrapPC.start →
      (CancelableTaskState.SetRunningIfNotCanceled s.task).2 = false →
      TaskStep α body s
        { s with task := (CancelableTaskState.SetRunningIfNotCanceled s.task).1,
                 pc := WrapPC.done,
                 events := s.events ++ [CbEvent.onCanceled none] }
  | completeOk : ∀ (s : TaskSys α) (r : α), s.pc = WrapPC.produced r →
      (CancelableTaskState.SetCompleteIfNotCanceled s.task).2 = true →
      TaskStep α body s
        { s with task := (CancelableTaskState.SetCompleteIfNotCanceled s.task).1,
                 pc := WrapPC.done,
                 events := s.events ++ [CbEvent.onCompleted r] }
  | completeFail : ∀ (s : TaskSys α) (r : α), s.pc = WrapPC.produced r →
      (CancelableTaskState.SetCompleteIfNotCanceled s.task).2 = false →
      TaskStep α body s
        { s with task := (CancelableTaskState.SetCompleteIfNotCanceled s.task).1,
                 pc := WrapPC.done,
                 events := s.events ++ [CbEvent.onCanceled (some r)] }
  | cancelStep : ∀ s : TaskSys α,
      TaskStep α body s
        { s with task := (CancelableTaskState.Cancel s.task).1,
                 terminations := s.terminations +
                   (if (CancelableTaskState.Cancel s.task).2 then 1 else 0) }

/-- Reachability from the initial task state under any interleaving of the
wrapper's steps with `cancel()` calls. -/
def TaskReach (α : Type) (body : α) : TaskSys α → Prop :=
  Relation.ReflTransGen (TaskStep α body) (TaskSys.init α)

/-- UTF-8 encoding of one unicode code point (1 to 4 bytes). -/
def utf8EncodeChar (c : Nat) : List Nat :=
  if c < 0x80 then [c]
  else if c < 0x800 then
    [0xC0 + c / 64, 0x80 + c % 64]
  else if c < 0x10000 then
    [0xE0 + c / 4096, 0x80 + (c / 64) % 64, 0x80 + c % 64]
  else
    [0xF0 + c / 262144, 0x80 + (c / 4096) % 64, 0x80 + (c / 64) % 64,
     0x80 + c % 64]

/-- UTF-8 encoding of a string given as a list of unicode code points. -/
def utf8Encode (cps : List Nat) : List Nat :=
  (cps.map utf8EncodeChar).flatten

/-- `v8::String::Utf8LengthV2`: the UTF-8 byte length of the string. -/
def Utf8LengthV2 (cps : List Nat) : Nat :=
  (utf8Encode cps).length

/-- Copy `src` into the front of `dst`, keeping `dst`'s remaining bytes:
the effect of `WriteUtf8V2` (and of `std::copy`) on a pre-sized buffer. -/
def writeBytes (dst src : List Nat) : List Nat :=
  src ++ dst.drop src.length

/-- A string-carrying Value, reduced to the fields the string invariant is
about: the handle's `len` and the Value-owned byte buffer `handle_.bytes`
points at. -/
structure StrValue where
  len : Nat
  buf : List Nat
  deriving DecidableEq, Repr

/-- The string branch of `Value::Value(v8::Local<v8::Value>)` in value.cc:
`len` is `Utf8LengthV2`, the buffer is resized (zero-filled) to `len + 1`
bytes, and `WriteUtf8V2` writes the UTF-8 bytes into it. -/
def Value.fromV8String (cps : List Nat) : StrValue :=
  let len := Utf8LengthV2 cps
  let buf0 := List.replicate (len + 1) 0
  ⟨len, writeBytes buf0 (utf8Encode cps)⟩

/-- `Value::Value(std::string_view, ValueTypes)` in value.cc: `len` is the
client bytes' size, the buffer is resized to `len + 1`, the bytes are copied
in and a zero byte is stored at index `len`. -/
def Value.fromStringView (bytes : List Nat) : StrValue :=
  let len := bytes.length
  let buf0 := List.replicate (len + 1) 0
  ⟨len, (writeBytes buf0 bytes).set len 0⟩

/-- `std::numeric_limits<size_t>::max()` on the 64-bit targets the frontend
is built for. -/
def SIZE_T_MAX : Nat := 2 ^ 64 - 1

/-- The process-wide context factory, context_factory.cc: a map from context
ids to live contexts (whose representation `C` is abstract here).  The
export layer sees `none` before `ContextFactory::Init` has run. -/
structure ContextFactory (C : Type) where
  contexts : List (Nat × C)

/-- `ContextFactory::GetContext`. -/
def ContextFactory.GetContext {C : Type} (f : ContextFactory C) (id : Nat) :
    Option C :=
  mapFind f.contexts id

/-- The `GetContext` helper at the top of exports.cc: `nullptr` when the
factory singleton does not exist, else `ContextFactory::GetContext`. -/
def exportsGetContext {C : Type} (factory : Option (ContextFactory C))
    (contextId : Nat) : Option C :=
  match factory with
  | none => none
  | some f => f.GetContext contextId

/-- `mr_context_count` from exports.cc: `SIZE_T_MAX` when the factory
singleton does not exist, else the number of live contexts. -/
def mr_context_count {C : Type} (factory : Option (ContextFactory C)) : Nat :=
  match factory with
  | none => SIZE_T_MAX
  | some f => f.contexts.length

/-- `mr_eval` from exports.cc: 0 when the context is missing, else the task
id returned by `Context::Eval` (supplied as `evalOp`). -/
def mr_eval {C : Type} (factory : Option (ContextFactory C)) (contextId : Nat)
    (codeHandle : Nat) (callbackId : Nat) (evalOp : C → Nat → Nat → Nat) :
    Nat :=
  match exportsGetContext factory contextId with
  | none => 0
  | some c => evalOp c codeHandle callbackId

/-- `mr_init_context` from exports.cc: 0 when the factory singleton does not
exist, else the new context id from `ContextFactory::MakeContext`. -/
def mr_init_context {C : Type} (factory : Option (ContextFactory C))
    (makeOp : ContextFactory C → Nat) : Nat :=
  match factory with
  | none => 0
  | some f => makeOp f

/-- `mr_free_context` from exports.cc: no-op when the factory singleton does
not exist, else `ContextFactory::FreeContext` (an erase by id). -/
def mr_free_context {C : Type} (factory : Option (ContextFactory C))
    (contextId : Nat) : Option (ContextFactory C) :=
  match factory with
  | none => none
  | some f => some ⟨mapErase f.contexts contextId⟩

/-- `mr_free_value` from exports.cc: no-op when the context is missing, else
`Context::FreeValue` applied to the named context. -/
def mr_free_value {C : Type} (factory : Option (ContextFactory C))
    (contextId : Nat) (valHandle : Nat) (freeOp : C → Nat → C) :
    Option (ContextFactory C) :=
  match factory with
  | none => none
  | some f =>
    match f.GetContext contextId with
    | none => some f
    | some c => some ⟨mapAssign f.contexts contextId (freeOp c valHandle)⟩

/-- `mr_alloc_int_val` from exports.cc: null handle when the context is
missing, else the handle from `Context::AllocInt`. -/
def mr_alloc_int_val {C : Type} (factory : Option (ContextFactory C))
    (contextId : Nat) (val : Int) (ty : ValueTypes) (allocOp : C → Int → ValueTypes → Nat) :
    Option Nat :=
  match exportsGetContext factory contextId with
  | none => none
  | some c => some (allocOp c val ty)

/-- `mr_alloc_double_val` from exports.cc (double payload abstracted to an
opaque `Nat` bit pattern): null handle when the context is missing. -/
def mr_alloc_double_val {C : Type} (factory : Option (ContextFactory C))
    (contextId : Nat) (bits : Nat) (ty : ValueTypes) (allocOp : C → Nat → ValueTypes → Nat) :
    Option Nat :=
  match exportsGetContext factory contextId with
  | none => none
  | some c => some (allocOp c bits ty)

/-- `mr_alloc_string_val` from exports.cc: null handle when the context is
missing. -/
def mr_alloc_string_val {C : Type} (factory : Option (ContextFactory C))
    (contextId : Nat) (bytes : List Nat) (ty : ValueTypes)
    (allocOp : C → List Nat → ValueTypes → Nat) : Option Nat :=
  match exportsGetContext factory contextId with
  | none => none
  | some c => some (allocOp c bytes ty)

/-- `mr_cancel_task` from exports.cc: no-op when the context is missing,
else `Context::CancelTask` on the named context. -/
def mr_cancel_task {C : Type} (factory : Option (ContextFactory C))
    (contextId : Nat) (taskId : Nat) (cancelOp : C → Nat → C) :
    Option (ContextFactory C) :=
  match factory with
  | none => none
  | some f =>
    match f.GetContext contextId with
    | none => some f
    | some c => some ⟨mapAssign f.contexts contextId (cancelOp c taskId)⟩

/-- `mr_heap_stats` from exports.cc: null handle when the context is
missing. -/
def mr_heap_stats {C : Type} (factory : Option (ContextFactory C))
    (contextId : Nat) (statsOp : C → Nat) : Option Nat :=
  match exportsGetContext factory contextId with
  | none => none
  | some c => some (statsOp c)

/-- `mr_set_hard_memory_limit` from exports.cc: no-op when the context is
missing. -/
def mr_set_hard_memory_limit {C : Type} (factory : Option (ContextFactory C))
    (contextId : Nat) (limit : Nat) (setOp : C → Nat → C) :
    Option (ContextFactory C) :=
  match factory with
  | none => none
  | some f =>
    match f.GetContext contextId with
    | none => some f
    | some c => some ⟨mapAssign f.contexts contextId (setOp c limit)⟩

/-- `mr_set_soft_memory_limit` from exports.cc: no-op when the context is
missing. -/
def mr_set_soft_memory_limit {C : Type} (factory : Option (ContextFactory C))
    (contextId : Nat) (limit : Nat) (setOp : C → Nat → C) :
    Option (ContextFactory C) :=
  match factory with
  | none => none
  | some f =>
    match f.GetContext contextId with
    | none => some f
    | some c => some ⟨mapAssign f.contexts contextId (setOp c limit)⟩

/-- `mr_hard_memory_limit_reached` from exports.cc: false when the context is
missing. -/
def mr_hard_memory_limit_reached {C : Type}
    (factory : Option (ContextFactory C)) (contextId : Nat)
    (reachedOp : C → Bool) : Bool :=
  match exportsGetContext factory contextId with
  | none => false
  | some c => reachedOp c

/-- `mr_soft_memory_limit_reached` from exports.cc: false when the context is
missing. -/
def mr_soft_memory_limit_reached {C : Type}
    (factory : Option (ContextFactory C)) (contextId : Nat)
    (reachedOp : C → Bool) : Bool :=
  match exportsGetContext factory contextId with
  | none => false
  | some c => reachedOp c

/-- `mr_low_memory_notification` from exports.cc: no-op when the context is
missing. -/
def mr_low_memory_notification {C : Type}
    (factory : Option (ContextFactory C)) (contextId : Nat) (notifyOp : C → C) :
    Option (ContextFactory C) :=
  match factory with
  | none => none
  | some f =>
    match f.GetContext contextId with
    | none => some f
    | some c => some ⟨mapAssign f.contexts contextId (notifyOp c)⟩

/-- `mr_make_js_callback` from exports.cc: null handle when the context is
missing. -/
def mr_make_js_callback {C : Type} (factory : Option (ContextFactory C))
    (contextId : Nat) (callbackId : Nat) (makeOp : C → Nat → Nat) :
    Option Nat :=
  match exportsGetContext factory contextId with
  | none => none
  | some c => some (makeOp c callbackId)

/-- `mr_get_identity_hash` from exports.cc: null handle when the context is
missing. -/
def mr_get_identity_hash {C : Type} (factory : Option (ContextFactory C))
    (contextId : Nat) (objHandle : Nat) (op : C → Nat → Nat) : Option Nat :=
  match exportsGetContext factory contextId with
  | none => none
  | some c => some (op c objHandle)

/-- `mr_get_own_property_names` from exports.cc: null handle when the context
is missing. -/
def mr_get_own_property_names {C : Type} (factory : Option (ContextFactory C))
    (contextId : Nat) (objHandle : Nat) (op : C → Nat → Nat) : Option Nat :=
  match exportsGetContext factory contextId with
  | none => none
  | some c => some (op c objHandle)

/-- `mr_get_object_item` from exports.cc: null handle when the context is
missing. -/
def mr_get_object_item {C : Type} (factory : Option (ContextFactory C))
    (contextId : Nat) (objHandle keyHandle : Nat) (op : C → Nat → Nat → Nat) :
    Option Nat :=
  match exportsGetContext factory contextId with
  | none => none
  | some c => some (op c objHandle keyHandle)

/-- `mr_set_object_item` from exports.cc: null handle when the context is
missing. -/
def mr_set_object_item {C : Type} (factory : Option (ContextFactory C))
    (contextId : Nat) (objHandle keyHandle valHandle : Nat)
    (op : C → Nat → Nat → Nat → Nat) : Option Nat :=
  match exportsGetContext factory contextId with
  | none => none
  | some c => some (op c objHandle keyHandle valHandle)

/-- `mr_del_object_item` from exports.cc: null handle when the context is
missing. -/
def mr_del_object_item {C : Type} (factory : Option (ContextFactory C))
    (contextId : Nat) (objHandle keyHandle : Nat) (op : C → Nat → Nat → Nat) :
    Option Nat :=
  match exportsGetContext factory contextId with
  | none => none
  | some c => some (op c objHandle keyHandle)

/-- `mr_splice_array` from exports.cc: null handle when the context is
missing. -/
def mr_splice_array {C : Type} (factory : Option (ContextFactory C))
    (contextId : Nat) (arrayHandle : Nat) (start deleteCount : Int)
    (newValHandle : Option Nat) (op : C → Nat → Int → Int → Option Nat → Nat) :
    Option Nat :=
  match exportsGetContext factory contextId with
  | none => none
  | some c => some (op c arrayHandle start deleteCount newValHandle)

/-- `mr_array_push` from exports.cc: null handle when the context is
missing. -/
def mr_array_push {C : Type} (factory : Option (ContextFactory C))
    (contextId : Nat) (arrayHandle newValHandle : Nat)
    (op : C → Nat → Nat → Nat) : Option Nat :=
  match exportsGetContext factory contextId with
  | none => none
  | some c => some (op c arrayHandle newValHandle)

/-- `mr_call_function` from exports.cc: zero task id when the context is
missing. -/
def mr_call_function {C : Type} (factory : Option (ContextFactory C))
    (contextId : Nat) (funcHandle thisHandle argvHandle callbackId : Nat)
    (op : C → Nat → Nat → Nat → Nat → Nat) : Nat :=
  match exportsGetContext factory contextId with
  | none => 0
  | some c => op c funcHandle thisHandle argvHandle callbackId

/-- `mr_heap_snapshot` from exports.cc: null handle when the context is
missing. -/
def mr_heap_snapshot {C : Type} (factory : Option (ContextFactory C))
    (contextId : Nat) (op : C → Nat) : Option Nat :=
  match exportsGetContext factory contextId with
  | none => none
  | some c => some (op c)

/-- `mr_value_count` from exports.cc: 0 when the context is missing. -/
def mr_value_count {C : Type} (factory : Option (ContextFactory C))
    (contextId : Nat) (op : C → Nat) : Nat :=
  match exportsGetContext factory contextId with
  | none => 0
  | some c => op c

/-- The task-state transitions the lifecycle admits: the three spec
transitions not-started→running, running→completed, {not-started,
running}→canceled, plus the no-change pairs produced by steps that find the
machine already canceled or completed. -/
def allowedTaskTransitions : List (TaskSt × TaskSt) :=
  [(TaskSt.kNotStarted, TaskSt.kRunning),
   (TaskSt.kRunning, TaskSt.kCompleted),
   (TaskSt.kNotStarted, TaskSt.kCanceled),
   (TaskSt.kRunning, TaskSt.kCanceled),
   (TaskSt.kCanceled, TaskSt.kCanceled),
   (TaskSt.kCompleted, TaskSt.kCompleted)]

/-- Inductive invariant of the scheduled-task system: what each wrapper
program counter implies about the state machine, the delivered callbacks and
the body. -/
def TaskInv {α : Type} (body : α) (s : TaskSys α) : Prop :=
  (s.pc = WrapPC.start →
    s.events = [] ∧ s.bodyRan = false ∧
    (s.task = TaskSt.kNotStarted ∨ s.task = TaskSt.kCanceled))
  ∧ (∀ r : α, s.pc = WrapPC.produced r →
    s.events = [] ∧ s.bodyRan = true ∧ r = body ∧
    (s.task = TaskSt.kRunning ∨ s.task = TaskSt.kCanceled))
  ∧ (s.pc = WrapPC.done →
    (s.events = [CbEvent.onCompleted body] ∧ s.bodyRan = true)
    ∨ (s.events = [CbEvent.onCanceled none] ∧ s.bodyRan = false)
    ∨ (s.events = [CbEvent.onCanceled (some body)] ∧ s.bodyRan = true))

/-! ## Theorems -/

/-- Claim C5: `from_any` assigns an engine value's type tag by first match in
the fixed order null, undefined, function, symbol, promise, array, (int32 or
bigint) → integer, number → double, boolean, date, string,
array-buffer-view, shared-array-buffer, array-buffer, object, else invalid;
in particular every BigInt value is tagged integer, and an object matching no
earlier predicate is tagged object. -/
theorem claim_C5_from_any_inference_order :
    (∀ v : JSValue, InferTypeFromValue v = firstMatchTag specInferenceOrder v)
    ∧ (∀ n : Int, InferTypeFromValue (JSValue.vBigInt n) = type_integer)
    ∧ InferTypeFromValue JSValue.vPlainObject = type_object := by
  refine ⟨fun v => ?_, fun n => rfl, rfl⟩
  cases v <;> rfl

theorem mapFind_mapAssign {α : Type} (m : List (Nat × α)) (h : Nat) (v : α) :
    mapFind (mapAssign m h v) h = some v := by
  induction m with
  | nil => simp [mapAssign, mapFind]
  | cons kw rest ih =>
    obtain ⟨k, w⟩ := kw
    by_cases hk : k = h <;> simp [mapAssign, mapFind, hk, ih]

theorem mapFind_eq_none_of_not_mem {α : Type} (m : List (Nat × α)) (h : Nat)
    (hm : h ∉ m.map Prod.fst) : mapFind m h = none := by
  induction m with
  | nil => rfl
  | cons kw rest ih =>
    obtain ⟨k, w⟩ := kw
    simp only [List.map_cons, List.mem_cons, not_or] at hm
    rw [mapFind, if_neg fun hkh => hm.1 hkh.symm]
    exact ih hm.2

theorem mapFind_mapErase_self {α : Type} (m : List (Nat × α)) (h : Nat)
    (hnd : (m.map Prod.fst).Nodup) : mapFind (mapErase m h) h = none := by
  induction m with
  | nil => rfl
  | cons kw rest ih =>
    obtain ⟨k, w⟩ := kw
    simp only [List.map_cons, List.nodup_cons] at hnd
    by_cases hk : k = h
    · subst hk
      rw [mapErase, if_pos rfl]
      exact mapFind_eq_none_of_not_mem rest k hnd.1
    · rw [mapErase, if_neg hk, mapFind, if_neg hk]
      exact ih hnd.2

theorem mapErase_of_find_none {α : Type} (m : List (Nat × α)) (h : Nat)
    (hf : mapFind m h = none) : mapErase m h = m := by
  induction m with
  | nil => rfl
  | cons kw rest ih =>
    obtain ⟨k, w⟩ := kw
    by_cases hk : k = h
    · rw [mapFind, if_pos hk] at hf
      exact absurd hf (by simp)
    · rw [mapFind, if_neg hk] at hf
      rw [mapErase, if_neg hk, ih hf]

/-- Claim C6: `lookup(remember(v))` returns `v` itself; `lookup(h)` after
`forget(h)` returns null; and `forget(h)` for a handle not present in the
registry returns silently, leaving the mapping unchanged. -/
theorem claim_C6_registry_soundness {α : Type} :
    (∀ (r : ValueRegistry α) (h : Nat) (v : α),
      (r.Remember h v).1.FromHandle (r.Remember h v).2 = some v)
    ∧ (∀ (r : ValueRegistry α) (h : Nat), mapKeysNodup r.values →
      (r.Forget h).FromHandle h = none)
    ∧ (∀ (r : ValueRegistry α) (h : Nat), r.FromHandle h = none →
      r.Forget h = r) := by
  refine ⟨fun r h v => ?_, fun r h hnd => ?_, fun r h hf => ?_⟩
  · exact mapFind_mapAssign r.values h v
  · exact mapFind_mapErase_self r.values h hnd
  · have := mapErase_of_find_none r.values h hf
    cases r
    simpa [ValueRegistry.Forget] using this

/-- Witness for claim C6 at a concrete registry. -/
theorem claim_C6_registry_soundness_witness :
    ((ValueRegistry.Remember (⟨[(5, 7)]⟩ : ValueRegistry Nat) 2 9).1.FromHandle
      (ValueRegistry.Remember (⟨[(5, 7)]⟩ : ValueRegistry Nat) 2 9).2 = some 9)
    ∧ ((ValueRegistry.Forget (⟨[(5, 7), (2, 9)]⟩ : ValueRegistry Nat) 2).FromHandle 2
      = none)
    ∧ (ValueRegistry.Forget (⟨[(5, 7)]⟩ : ValueRegistry Nat) 3 = ⟨[(5, 7)]⟩) :=
  ⟨claim_C6_registry_soundness.1 ⟨[(5, 7)]⟩ 2 9,
   claim_C6_registry_soundness.2.1 ⟨[(5, 7), (2, 9)]⟩ 2
     (by unfold mapKeysNodup; decide),
   claim_C6_registry_soundness.2.2 ⟨[(5, 7)]⟩ 3 (by decide)⟩

/-- Claim C7: on each GC-epilogue invocation the monitor reads the used heap
size and then the soft-reached flag is set exactly when the soft limit is
positive and used exceeds it (a moderate pressure notification is delivered
exactly in that case, and none otherwise), and when the hard limit is
positive and used exceeds it the hard-reached flag is set and execution
termination is requested; a limit of 0 disables the corresponding check. -/
theorem claim_C7_gc_callback_limits (st : MonitorState) (used : Nat) :
    ((Context.GCCallback st used).1.soft_memory_limit_reached = true
      ↔ 0 < st.soft_memory_limit ∧ st.soft_memory_limit < used)
    ∧ ((Context.GCCallback st used).2.pressure = PressureLevel.kModerate
      ↔ 0 < st.soft_memory_limit ∧ st.soft_memory_limit < used)
    ∧ ((Context.GCCallback st used).2.pressure = PressureLevel.kNone
      ↔ ¬(0 < st.soft_memory_limit ∧ st.soft_memory_limit < used))
    ∧ ((Context.GCCallback st used).2.terminateRequested = true
      ↔ 0 < st.hard_memory_limit ∧ st.hard_memory_limit < used)
    ∧ (0 < st.hard_memory_limit ∧ st.hard_memory_limit < used →
      (Context.GCCallback st used).1.hard_memory_limit_reached = true)
    ∧ (st.soft_memory_limit = 0 →
      (Context.GCCallback st used).1.soft_memory_limit_reached = false
      ∧ (Context.GCCallback st used).2.pressure = PressureLevel.kNone)
    ∧ (st.hard_memory_limit = 0 →
      (Context.GCCallback st used).1.hard_memory_limit_reached
        = st.hard_memory_limit_reached
      ∧ (Context.GCCallback st used).2.terminateRequested = false) := by
  unfold Context.GCCallback
  by_cases hh : 0 < st.hard_memory_limit ∧ st.hard_memory_limit < used <;>
    by_cases hs : 0 < st.soft_memory_limit ∧ st.soft_memory_limit < used <;>
    simp [hh, hs] <;> omega

/-- Witness for claim C7 at a concrete monitor state. -/
theorem claim_C7_gc_callback_limits_witness :
    ((Context.GCCallback ⟨10, false, 20, false⟩ 30).1.soft_memory_limit_reached
      = true ↔ 0 < 10 ∧ 10 < 30)
    ∧ (0 < 20 ∧ 20 < 30 →
      (Context.GCCallback ⟨10, false, 20, false⟩ 30).1.hard_memory_limit_reached
        = true) :=
  ⟨(claim_C7_gc_callback_limits ⟨10, false, 20, false⟩ 30).1,
   (claim_C7_gc_callback_limits ⟨10, false, 20, false⟩ 30).2.2.2.2.1⟩

/-- Claim C9: `set_hard_limit(b)` and `set_soft_limit(b)` unconditionally
reset the corresponding reached flag to false; the GC callback never clears
the hard-reached flag (once set it stays true until the next
`set_hard_limit`), whereas the soft-reached flag is recomputed on every GC
callback invocation, independent of its previous value. -/
theorem claim_C9_limit_reset_and_latching (st : MonitorState) (b used : Nat) :
    ((Context.SetHardMemoryLimit st b).hard_memory_limit_reached = false)
    ∧ ((Context.SetHardMemoryLimit st b).hard_memory_limit = b)
    ∧ ((Context.SetSoftMemoryLimit st b).soft_memory_limit_reached = false)
    ∧ ((Context.SetSoftMemoryLimit st b).soft_memory_limit = b)
    ∧ (st.hard_memory_limit_reached = true →
      (Context.GCCallback st used).1.hard_memory_limit_reached = true)
    ∧ ((Context.GCCallback st used).1.soft_memory_limit_reached
      = (st.soft_memory_limit > 0 && used > st.soft_memory_limit)) := by
  refine ⟨rfl, rfl, rfl, rfl, fun hset => ?_, ?_⟩
  · unfold Context.GCCallback
    by_cases hh : 0 < st.hard_memory_limit ∧ st.hard_memory_limit < used <;>
      simp [hh, hset]
  · unfold Context.GCCallback
    by_cases hh : 0 < st.hard_memory_limit ∧ st.hard_memory_limit < used <;>
      simp [hh]

/-- Witness for claim C9 at a concrete monitor state. -/
theorem claim_C9_limit_reset_and_latching_witness :
    ((Context.SetHardMemoryLimit ⟨0, false, 9, true⟩ 4).hard_memory_limit_reached
      = false)
    ∧ ((true : Bool) = true →
      (Context.GCCallback ⟨0, false, 9, true⟩ 3).1.hard_memory_limit_reached
        = true) :=
  ⟨(claim_C9_limit_reset_and_latching ⟨0, false, 9, true⟩ 4 3).1,
   fun _ => (claim_C9_limit_reset_and_latching ⟨0, false, 9, true⟩ 4 3).2.2.2.2.1
     rfl⟩

theorem writeBytes_replicate (src : List Nat) :
    writeBytes (List.replicate (src.length + 1) 0) src = src ++ [0] := by
  unfold writeBytes
  rw [List.drop_replicate]
  simp

/-- Claim C8: for every string Value — built from an engine string or from
client-supplied bytes — the handle's `len` equals the UTF-8 byte length of
the stored content, and the Value-owned buffer has a terminating zero byte at
index `len`. -/
theorem claim_C8_string_len_and_terminator :
    (∀ cps : List Nat,
      (Value.fromV8String cps).buf = utf8Encode cps ++ [0]
      ∧ (Value.fromV8String cps).len = (utf8Encode cps).length
      ∧ (Value.fromV8String cps).buf.take (Value.fromV8String cps).len
        = utf8Encode cps
      ∧ (Value.fromV8String cps).buf[(Value.fromV8String cps).len]? = some 0)
    ∧ (∀ bytes : List Nat,
      (Value.fromStringView bytes).buf = bytes ++ [0]
      ∧ (Value.fromStringView bytes).len = bytes.length
      ∧ (Value.fromStringView bytes).buf.take (Value.fromStringView bytes).len
        = bytes
      ∧ (Value.fromStringView bytes).buf[(Value.fromStringView bytes).len]?
        = some 0) := by
  constructor
  · intro cps
    have hbuf : (Value.fromV8String cps).buf = utf8Encode cps ++ [0] := by
      show writeBytes (List.replicate (Utf8LengthV2 cps + 1) 0) (utf8Encode cps)
        = utf8Encode cps ++ [0]
      rw [Utf8LengthV2, writeBytes_replicate]
    refine ⟨hbuf, rfl, ?_, ?_⟩
    · rw [hbuf]
      show (utf8Encode cps ++ [0]).take (utf8Encode cps).length = utf8Encode cps
      simp
    · rw [hbuf]
      show (utf8Encode cps ++ [0])[(utf8Encode cps).length]? = some 0
      simp
  · intro bytes
    have hbuf : (Value.fromStringView bytes).buf = bytes ++ [0] := by
      show ((writeBytes (List.replicate (bytes.length + 1) 0) bytes).set
        bytes.length 0) = bytes ++ [0]
      rw [writeBytes_replicate]
      rw [List.set_append_right _ _ (Nat.le_refl _)]
      simp
    refine ⟨hbuf, rfl, ?_, ?_⟩
    · rw [hbuf]
      show (bytes ++ [0]).take bytes.length = bytes
      simp
    · rw [hbuf]
      show (bytes ++ [0])[bytes.length]? = some 0
      simp

/-- Claim C4: when eval's compiled script fails to run, the cause is
classified in fixed order — `is_hard_reached()` → `oom_exception` with an
empty message; otherwise termination → `terminated_exception`; otherwise
`execute_exception` summarizing the caught exception; in particular any run
terminated while the hard limit is reached yields `oom_exception`. -/
theorem claim_C4_run_failure_classification (hardReached : Bool)
    (env : V8RunEnv) (code : JSValue) (hstr : code.IsString = true)
    (hcomp : env.compileOk = true) (hfail : env.runResult = none) :
    (hardReached = true →
      CodeEvaluator.Eval hardReached env code = ⟨type_oom_exception, ""⟩)
    ∧ (hardReached = false → env.hasTerminated = true →
      CodeEvaluator.Eval hardReached env code
        = ⟨type_terminated_exception, env.excSummary⟩)
    ∧ (hardReached = false → env.hasTerminated = false →
      CodeEvaluator.Eval hardReached env code
        = ⟨type_execute_exception, env.excSummary⟩) := by
  refine ⟨fun hh => ?_, fun hh ht => ?_, fun hh ht => ?_⟩ <;>
    simp [CodeEvaluator.Eval, hstr, hcomp, hfail, *]

/-- Witness for claim C4: a terminated run under the hard memory limit maps
to `oom_exception`. -/
theorem claim_C4_run_failure_classification_witness :
    CodeEvaluator.Eval true ⟨true, none, true, "boom"⟩ (JSValue.vString [97])
      = ⟨type_oom_exception, ""⟩ :=
  (claim_C4_run_failure_classification true ⟨true, none, true, "boom"⟩
    (JSValue.vString [97]) rfl rfl rfl).1 rfl

/-- Counterexample to claim C3 as stated: a non-string eval argument and a
non-function call target are reported with tag `execute_exception`, not
`value_exception`. -/
theorem claim_C3_counterexample :
    (CodeEvaluator.Eval false ⟨true, none, false, ""⟩ (JSValue.vInt32 3)).tag
      = type_execute_exception
    ∧ (CodeEvaluator.Eval false ⟨true, none, false, ""⟩
        (JSValue.vInt32 3)).tag ≠ type_value_exception
    ∧ (ObjectManipulator.Call ⟨none, ""⟩ JSValue.vPlainObject none
        JSValue.vArray).tag = type_execute_exception
    ∧ (ObjectManipulator.Call ⟨none, ""⟩ JSValue.vFunction none
        (JSValue.vInt32 0)).tag = type_execute_exception := by
  refine ⟨rfl, ?_, rfl, rfl⟩
  decide

/-- Claim C3 amended: whenever a client-supplied argument has the wrong shape
— eval's code value is not a string, call's function value is not a function,
or call's argv value is not an array — the operation returns a Value whose
type tag is `execute_exception`, with a message naming the bad argument
(`value_exception` is reserved for unknown handles). -/
theorem claim_C3_wrong_shape_tags (hardReached : Bool) (env : V8RunEnv)
    (cenv : V8CallEnv) (code func argv : JSValue) (thisArg : Option JSValue)
    (hcode : code.IsString = false) (hfunc : func.IsFunction = false)
    (hargv : argv.IsArray = false) :
    CodeEvaluator.Eval hardReached env code
      = ⟨type_execute_exception, "code is not a string"⟩
    ∧ ObjectManipulator.Call cenv func thisArg argv
      = ⟨type_execute_exception, "function is not callable"⟩
    ∧ (∀ f : JSValue, f.IsFunction = true →
      ObjectManipulator.Call cenv f thisArg argv
        = ⟨type_execute_exception, "argv is not an array"⟩) := by
  refine ⟨?_, ?_, fun f hf => ?_⟩ <;>
    simp [CodeEvaluator.Eval, ObjectManipulator.Call, hcode, hfunc, hargv, *]

/-- Witness for the amended claim C3 at concrete wrong-shape arguments. -/
theorem claim_C3_wrong_shape_tags_witness :
    CodeEvaluator.Eval false ⟨true, none, false, ""⟩ (JSValue.vInt32 3)
      = ⟨type_execute_exception, "code is not a string"⟩
    ∧ ObjectManipulator.Call ⟨none, ""⟩ JSValue.vPlainObject none
        (JSValue.vInt32 0)
      = ⟨type_execute_exception, "function is not callable"⟩ :=
  ⟨(claim_C3_wrong_shape_tags false ⟨true, none, false, ""⟩ ⟨none, ""⟩
      (JSValue.vInt32 3) JSValue.vPlainObject (JSValue.vInt32 0) none
      rfl rfl rfl).1,
   (claim_C3_wrong_shape_tags false ⟨true, none, false, ""⟩ ⟨none, ""⟩
      (JSValue.vInt32 3) JSValue.vPlainObject (JSValue.vInt32 0) none
      rfl rfl rfl).2.1⟩

/-- Claim C10: with no context factory (process init never performed),
`mr_context_count` returns the maximum `size_t` value rather than 0, while
every other context-consulting export — in that situation or given an unknown
context id — returns a null handle, a zero task id, false, or does nothing.
(`mr_init_v8`, `mr_v8_version` and `mr_v8_is_using_sandbox` never consult the
factory or a context id.) -/
theorem claim_C10_export_fallbacks {C : Type} (f : ContextFactory C)
    (cid : Nat) (hmiss : f.GetContext cid = none) :
    mr_context_count (C := C) none = SIZE_T_MAX
    ∧ SIZE_T_MAX ≠ 0
    ∧ (∀ ch cb evalOp, mr_eval (C := C) none cid ch cb evalOp = 0
        ∧ mr_eval (some f) cid ch cb evalOp = 0)
    ∧ (∀ makeOp, mr_init_context (C := C) none makeOp = 0)
    ∧ (mr_free_context (C := C) none cid = none
        ∧ mr_free_context (some f) cid = some f)
    ∧ (∀ vh freeOp, mr_free_value (C := C) none cid vh freeOp = none
        ∧ mr_free_value (some f) cid vh freeOp = some f)
    ∧ (∀ v ty allocOp, mr_alloc_int_val (C := C) none cid v ty allocOp = none
        ∧ mr_alloc_int_val (some f) cid v ty allocOp = none)
    ∧ (∀ b ty allocOp, mr_alloc_double_val (C := C) none cid b ty allocOp = none
        ∧ mr_alloc_double_val (some f) cid b ty allocOp = none)
    ∧ (∀ bs ty allocOp, mr_alloc_string_val (C := C) none cid bs ty allocOp = none
        ∧ mr_alloc_string_val (some f) cid bs ty allocOp = none)
    ∧ (∀ tid cancelOp, mr_cancel_task (C := C) none cid tid cancelOp = none
        ∧ mr_cancel_task (some f) cid tid cancelOp = some f)
    ∧ (∀ statsOp, mr_heap_stats (C := C) none cid statsOp = none
        ∧ mr_heap_stats (some f) cid statsOp = none)
    ∧ (∀ lim setOp, mr_set_hard_memory_limit (C := C) none cid lim setOp = none
        ∧ mr_set_hard_memory_limit (some f) cid lim setOp = some f)
    ∧ (∀ lim setOp, mr_set_soft_memory_limit (C := C) none cid lim setOp = none
        ∧ mr_set_soft_memory_limit (some f) cid lim setOp = some f)
    ∧ (∀ rOp, mr_hard_memory_limit_reached (C := C) none cid rOp = false
        ∧ mr_hard_memory_limit_reached (some f) cid rOp = false)
    ∧ (∀ rOp, mr_soft_memory_limit_reached (C := C) none cid rOp = false
        ∧ mr_soft_memory_limit_reached (some f) cid rOp = false)
    ∧ (∀ nOp, mr_low_memory_notification (C := C) none cid nOp = none
        ∧ mr_low_memory_notification (some f) cid nOp = some f)
    ∧ (∀ cb mOp, mr_make_js_callback (C := C) none cid cb mOp = none
        ∧ mr_make_js_callback (some f) cid cb mOp = none)
    ∧ (∀ oh op, mr_get_identity_hash (C := C) none cid oh op = none
        ∧ mr_get_identity_hash (some f) cid oh op = none)
    ∧ (∀ oh op, mr_get_own_property_names (C := C) none cid oh op = none
        ∧ mr_get_own_property_names (some f) cid oh op = none)
    ∧ (∀ oh kh op, mr_get_object_item (C := C) none cid oh kh op = none
        ∧ mr_get_object_item (some f) cid oh kh op = none)
    ∧ (∀ oh kh vh op, mr_set_object_item (C := C) none cid oh kh vh op = none
        ∧ mr_set_object_item (some f) cid oh kh vh op = none)
    ∧ (∀ oh kh op, mr_del_object_item (C := C) none cid oh kh op = none
        ∧ mr_del_object_item (some f) cid oh kh op = none)
    ∧ (∀ ah st dc nv op, mr_splice_array (C := C) none cid ah st dc nv op = none
        ∧ mr_splice_array (some f) cid ah st dc nv op = none)
    ∧ (∀ ah nvh op, mr_array_push (C := C) none cid ah nvh op = none
        ∧ mr_array_push (some f) cid ah nvh op = none)
    ∧ (∀ fh th avh cb op, mr_call_function (C := C) none cid fh th avh cb op = 0
        ∧ mr_call_function (some f) cid fh th avh cb op = 0)
    ∧ (∀ op, mr_heap_snapshot (C := C) none cid op = none
        ∧ mr_heap_snapshot (some f) cid op = none)
    ∧ (∀ op, mr_value_count (C := C) none cid op = 0
        ∧ mr_value_count (some f) cid op = 0) := by
  have hfind : mapFind f.contexts cid = none := hmiss
  have herase : mapErase f.contexts cid = f.contexts :=
    mapErase_of_find_none f.contexts cid hfind
  refine ⟨rfl, by decide, ?_, fun _ => rfl, ?_, ?_, ?_, ?_, ?_, ?_, ?_, ?_,
    ?_, ?_, ?_, ?_, ?_, ?_, ?_, ?_, ?_, ?_, ?_, ?_, ?_, ?_, ?_⟩ <;>
    intros <;>
    simp [mr_eval, mr_free_context, mr_free_value, mr_alloc_int_val,
      mr_alloc_double_val, mr_alloc_string_val, mr_cancel_task, mr_heap_stats,
      mr_set_hard_memory_limit, mr_set_soft_memory_limit,
      mr_hard_memory_limit_reached, mr_soft_memory_limit_reached,
      mr_low_memory_notification, mr_make_js_callback, mr_get_identity_hash,
      mr_get_own_property_names, mr_get_object_item, mr_set_object_item,
      mr_del_object_item, mr_splice_array, mr_array_push, mr_call_function,
      mr_heap_snapshot, mr_value_count, exportsGetContext, hmiss, herase]

/-- Witness for claim C10 at a concrete factory with one context and an
unknown context id. -/
theorem claim_C10_export_fallbacks_witness :
    mr_context_count (C := Nat) none = SIZE_T_MAX
    ∧ mr_eval (some (⟨[(3, 99)]⟩ : ContextFactory Nat)) 5 0 0
        (fun _ _ _ => 7) = 0
    ∧ mr_free_context (some (⟨[(3, 99)]⟩ : ContextFactory Nat)) 5
        = some ⟨[(3, 99)]⟩ :=
  ⟨(claim_C10_export_fallbacks (⟨[(3, 99)]⟩ : ContextFactory Nat) 5 rfl).1,
   ((claim_C10_export_fallbacks (⟨[(3, 99)]⟩ : ContextFactory Nat) 5 rfl).2.2.1
     0 0 (fun _ _ _ => 7)).2,
   (claim_C10_export_fallbacks (⟨[(3, 99)]⟩ : ContextFactory Nat) 5
     rfl).2.2.2.2.1.2⟩

theorem taskInv_init {α : Type} (body : α) : TaskInv body (TaskSys.init α) := by
  refine ⟨fun _ => ⟨rfl, rfl, Or.inl rfl⟩, fun r hr => ?_, fun hd => ?_⟩
  · exact WrapPC.noConfusion hr
  · exact WrapPC.noConfusion hd

theorem setRunning_true_of_notStarted {s : TaskSt}
    (h : s = TaskSt.kNotStarted ∨ s = TaskSt.kCanceled)
    (hok : (CancelableTaskState.SetRunningIfNotCanceled s).2 = true) :
    s = TaskSt.kNotStarted := by
  rcases h with h | h
  · exact h
  · rw [h] at hok
    simp [CancelableTaskState.SetRunningIfNotCanceled] at hok

theorem setRunning_false_canceled {s : TaskSt}
    (h : s = TaskSt.kNotStarted ∨ s = TaskSt.kCanceled)
    (hfail : (CancelableTaskState.SetRunningIfNotCanceled s).2 = false) :
    s = TaskSt.kCanceled := by
  rcases h with h | h
  · rw [h] at hfail
    simp [CancelableTaskState.SetRunningIfNotCanceled] at hfail
  · exact h

theorem setComplete_true_of_running {s : TaskSt}
    (h : s = TaskSt.kRunning ∨ s = TaskSt.kCanceled)
    (hok : (CancelableTaskState.SetCompleteIfNotCanceled s).2 = true) :
    s = TaskSt.kRunning := by
  rcases h with h | h
  · exact h
  · rw [h] at hok
    simp [CancelableTaskState.SetCompleteIfNotCanceled] at hok

theorem setComplete_false_canceled {s : TaskSt}
    (h : s = TaskSt.kRunning ∨ s = TaskSt.kCanceled)
    (hfail : (CancelableTaskState.SetCompleteIfNotCanceled s).2 = false) :
    s = TaskSt.kCanceled := by
  rcases h with h | h
  · rw [h] at hfail
    simp [CancelableTaskState.SetCompleteIfNotCanceled] at hfail
  · exact h

theorem taskInv_step {α : Type} {body : α} {s s' : TaskSys α}
    (hInv : TaskInv body s) (hstep : TaskStep α body s s') :
    TaskInv body s' := by
  obtain ⟨hstart, hprod, hdone⟩ := hInv
  cases hstep with
  | runOk hpc hok =>
    obtain ⟨hev, hbr, htask⟩ := hstart hpc
    have hns := setRunning_true_of_notStarted htask hok
    refine ⟨fun h => by simp at h, fun r hr => ?_, fun h => by simp at h⟩
    have hrb : body = r := by simpa using hr
    refine ⟨hev, rfl, hrb.symm, Or.inl ?_⟩
    simp [hns, CancelableTaskState.SetRunningIfNotCanceled]
  | runFail hpc hfail =>
    obtain ⟨hev, hbr, htask⟩ := hstart hpc
    have hc := setRunning_false_canceled htask hfail
    refine ⟨fun h => by simp at h, fun r hr => by simp at hr, fun _ => ?_⟩
    right; left
    exact ⟨by simp [hev], hbr⟩
  | completeOk r hpc hok =>
    obtain ⟨hev, hbr, hrb, htask⟩ := hprod r hpc
    refine ⟨fun h => by simp at h, fun r hr => by simp at hr, fun _ => ?_⟩
    left
    exact ⟨by simp [hev, hrb], hbr⟩
  | completeFail r hpc hfail =>
    obtain ⟨hev, hbr, hrb, htask⟩ := hprod r hpc
    refine ⟨fun h => by simp at h, fun r hr => by simp at hr, fun _ => ?_⟩
    right; right
    exact ⟨by simp [hev, hrb], hbr⟩
  | cancelStep =>
    refine ⟨fun h => ?_, fun r hr => ?_, fun h => ?_⟩
    · obtain ⟨hev, hbr, htask⟩ := hstart h
      refine ⟨hev, hbr, Or.inr ?_⟩
      rcases htask with ht | ht <;>
        simp [ht, CancelableTaskState.Cancel]
    · obtain ⟨hev, hbr, hrb, htask⟩ := hprod r hr
      refine ⟨hev, hbr, hrb, Or.inr ?_⟩
      rcases htask with ht | ht <;>
        simp [ht, CancelableTaskState.Cancel]
    · exact hdone h

theorem taskInv_reach {α : Type} {body : α} {s : TaskSys α}
    (h : TaskReach α body s) : TaskInv body s := by
  unfold TaskReach at h
  induction h with
  | refl => exact taskInv_init body
  | tail hr hstep ih => exact taskInv_step ih hstep

theorem cancel_transition_allowed (t : TaskSt) :
    (t, (CancelableTaskState.Cancel t).1) ∈ allowedTaskTransitions := by
  cases t <;> simp [CancelableTaskState.Cancel, allowedTaskTransitions]

theorem taskStep_transition {α : Type} {body : α} {s s' : TaskSys α}
    (hInv : TaskInv body s) (hstep : TaskStep α body s s') :
    (s.task, s'.task) ∈ allowedTaskTransitions := by
  obtain ⟨hstart, hprod, hdone⟩ := hInv
  cases hstep with
  | runOk hpc hok =>
    obtain ⟨hev, hbr, htask⟩ := hstart hpc
    have hns := setRunning_true_of_notStarted htask hok
    simp [hns, CancelableTaskState.SetRunningIfNotCanceled,
      allowedTaskTransitions]
  | runFail hpc hfail =>
    obtain ⟨hev, hbr, htask⟩ := hstart hpc
    have hc := setRunning_false_canceled htask hfail
    simp [hc, CancelableTaskState.SetRunningIfNotCanceled,
      allowedTaskTransitions]
  | completeOk r hpc hok =>
    obtain ⟨hev, hbr, hrb, htask⟩ := hprod r hpc
    have hrun := setComplete_true_of_running htask hok
    simp [hrun, CancelableTaskState.SetCompleteIfNotCanceled,
      allowedTaskTransitions]
  | completeFail r hpc hfail =>
    obtain ⟨hev, hbr, hrb, htask⟩ := hprod r hpc
    have hc := setComplete_false_canceled htask hfail
    simp [hc, CancelableTaskState.SetCompleteIfNotCanceled,
      allowedTaskTransitions]
  | cancelStep =>
    exact cancel_transition_allowed s.task

/-- Claim C1: for every scheduled task, exactly one of `on_completed` and
`on_canceled` is invoked, under every interleaving of `cancel()` with the
wrapped body: if cancellation wins before the running transition the body
never executes and `on_canceled` receives null, and if cancellation arrives
after the body produced a value but before the completion transition,
`on_canceled` receives that computed value. -/
theorem claim_C1_single_terminal_callback {α : Type} (body : α)
    (s : TaskSys α) (hreach : TaskReach α body s)
    (hdone : s.pc = WrapPC.done) :
    s.events.length = 1
    ∧ (s.events = [CbEvent.onCompleted body]
      ∨ (s.events = [CbEvent.onCanceled none] ∧ s.bodyRan = false)
      ∨ (s.events = [CbEvent.onCanceled (some body)] ∧ s.bodyRan = true)) := by
  have hinv := (taskInv_reach hreach).2.2 hdone
  rcases hinv with ⟨he, hb⟩ | ⟨he, hb⟩ | ⟨he, hb⟩ <;> simp [he, hb]

/-- Witness for claim C1: a completed run of a concrete task delivers exactly
the `on_completed` callback. -/
theorem claim_C1_single_terminal_callback_witness :
    (⟨TaskSt.kCompleted, WrapPC.done, [CbEvent.onCompleted (42 : Nat)], 0,
        true⟩ : TaskSys Nat).events.length = 1
    ∧ ((⟨TaskSt.kCompleted, WrapPC.done, [CbEvent.onCompleted (42 : Nat)], 0,
        true⟩ : TaskSys Nat).events = [CbEvent.onCompleted 42]
      ∨ ((⟨TaskSt.kCompleted, WrapPC.done, [CbEvent.onCompleted (42 : Nat)], 0,
        true⟩ : TaskSys Nat).events = [CbEvent.onCanceled none]
        ∧ (⟨TaskSt.kCompleted, WrapPC.done, [CbEvent.onCompleted (42 : Nat)],
            0, true⟩ : TaskSys Nat).bodyRan = false)
      ∨ ((⟨TaskSt.kCompleted, WrapPC.done, [CbEvent.onCompleted (42 : Nat)], 0,
        true⟩ : TaskSys Nat).events = [CbEvent.onCanceled (some 42)]
        ∧ (⟨TaskSt.kCompleted, WrapPC.done, [CbEvent.onCompleted (42 : Nat)],
            0, true⟩ : TaskSys Nat).bodyRan = true)) := by
  have h1 : TaskStep Nat 42 (TaskSys.init Nat)
      ⟨TaskSt.kRunning, WrapPC.produced 42, [], 0, true⟩ :=
    TaskStep.runOk (TaskSys.init Nat) rfl rfl
  have h2 : TaskStep Nat 42
      (⟨TaskSt.kRunning, WrapPC.produced 42, [], 0, true⟩ : TaskSys Nat)
      ⟨TaskSt.kCompleted, WrapPC.done, [CbEvent.onCompleted 42], 0, true⟩ :=
    TaskStep.completeOk _ 42 rfl rfl
  have hreach : TaskReach Nat 42
      ⟨TaskSt.kCompleted, WrapPC.done, [CbEvent.onCompleted 42], 0, true⟩ :=
    Relation.ReflTransGen.tail
      (Relation.ReflTransGen.tail Relation.ReflTransGen.refl h1) h2
  exact claim_C1_single_terminal_callback 42 _ hreach rfl

/-- Claim C2: the per-task state machine admits only the transitions
not-started→running, running→completed and {not-started, running}→canceled
(plus the identity pairs of steps that find the machine already terminal):
canceled is terminal from every state, completed is reachable only from
running, `cancel()` calls `terminate_running()` exactly when invoked in state
running, and `cancel()` in state completed or canceled leaves the state
unchanged. -/
theorem claim_C2_task_state_machine (α : Type) (body : α) :
    (∀ s s' : TaskSys α, TaskReach α body s → TaskStep α body s s' →
      (s.task, s'.task) ∈ allowedTaskTransitions)
    ∧ (∀ s s' : TaskSys α, TaskReach α body s → TaskStep α body s s' →
      s'.task = TaskSt.kCompleted →
      s.task = TaskSt.kRunning ∨ s.task = TaskSt.kCompleted)
    ∧ (∀ st : TaskSt,
      (CancelableTaskState.Cancel st).2 = true ↔ st = TaskSt.kRunning)
    ∧ CancelableTaskState.Cancel TaskSt.kCompleted = (TaskSt.kCompleted, false)
    ∧ CancelableTaskState.Cancel TaskSt.kCanceled = (TaskSt.kCanceled, false)
    ∧ CancelableTaskState.SetRunningIfNotCanceled TaskSt.kCanceled
      = (TaskSt.kCanceled, false)
    ∧ CancelableTaskState.SetCompleteIfNotCanceled TaskSt.kCanceled
      = (TaskSt.kCanceled, false) := by
  have htrans : ∀ s s' : TaskSys α, TaskReach α body s →
      TaskStep α body s s' → (s.task, s'.task) ∈ allowedTaskTransitions :=
    fun s s' hreach hstep => taskStep_transition (taskInv_reach hreach) hstep
  refine ⟨htrans, fun s s' hreach hstep hcp => ?_, fun st => ?_,
    by decide, by decide, by decide, by decide⟩
  · have hmem := htrans s s' hreach hstep
    rw [hcp] at hmem
    simp [allowedTaskTransitions] at hmem
    tauto
  · cases st <;> simp [CancelableTaskState.Cancel]

/-- Witness for claim C2: applying the theorem at a concrete step (a cancel
of a freshly scheduled task) and at concrete machine states. -/
theorem claim_C2_task_state_machine_witness :
    (((TaskSys.init Nat).task,
      (⟨TaskSt.kCanceled, WrapPC.start, [], 0, false⟩ : TaskSys Nat).task)
        ∈ allowedTaskTransitions)
    ∧ ((CancelableTaskState.Cancel TaskSt.kRunning).2 = true
        ↔ TaskSt.kRunning = TaskSt.kRunning)
    ∧ CancelableTaskState.Cancel TaskSt.kCompleted
      = (TaskSt.kCompleted, false) := by
  have hstep : TaskStep Nat 7 (TaskSys.init Nat)
      ⟨TaskSt.kCanceled, WrapPC.start, [], 0, false⟩ :=
    TaskStep.cancelStep (TaskSys.init Nat)
  exact ⟨(claim_C2_task_state_machine Nat 7).1 (TaskSys.init Nat) _
      Relation.ReflTransGen.refl hstep,
    (claim_C2_task_state_machine Nat 7).2.2.1 TaskSt.kRunning,
    (claim_C2_task_state_machine Nat 7).2.2.2.1⟩
